import Mathlib

/-!
Shallow embedding of the Basidia message-broker and RPC layers.

The definitions below are translated from the repository sources:
* `src/basidia/brokers/memory.py` (`MemoryBroker`),
* `src/basidia/brokers/amqp.py` (`AMQPBroker`, with the `aio_pika`
  collaborator abstracted to an action trace, as the spec puts its
  protocol handling out of scope),
* `src/basidia/service.py` (`Service`).

Payloads travel as JSON documents (`json.dumps`/`json.loads` on the wire);
the embedding represents a payload directly by its parsed JSON value `J`,
modelling the fact that `dumps` followed by `loads` round-trips.
Python exception control flow is represented with `Except`; asyncio's
cooperative scheduling is represented by explicit state-transition
functions (one per suspension-free code region) and by an operation type
`MOp` whose sequences generate the reachable broker states.
-/

namespace Basidia

/-- JSON values, the payloads carried by every broker message. -/
inductive J where
  | null
  | bool (b : Bool)
  | num (n : Int)
  | str (s : String)
  | arr (xs : List J)
  | obj (fields : List (String × J))

/-- Lookup in a Python dict represented as an association list in
insertion order (first match; parsed JSON dicts have unique keys). -/
def alookup {α : Type} : List (String × α) → String → Option α
  | [], _ => none
  | (k', v) :: xs, k => if k' = k then some v else alookup xs k

/-- Dict update `d[k] = v`: replaces in place, else appends (Python dicts
preserve insertion order). -/
def aupdate {α : Type} : List (String × α) → String → α → List (String × α)
  | [], k, v => [(k, v)]
  | (k', v') :: xs, k, v =>
      if k' = k then (k, v) :: xs else (k', v') :: aupdate xs k v

/-- Lookup with the `defaultdict` default: a missing key reads as the
empty container. -/
def lookupD {α : Type} (xs : List (String × List α)) (k : String) : List α :=
  (alookup xs k).getD []

/-- Python `str()` of a JSON value as used in f-string error messages.
Composite values are abbreviated; no claim depends on their rendering. -/
def jStr : J → String
  | .null => "None"
  | .bool true => "True"
  | .bool false => "False"
  | .num n => toString n
  | .str s => s
  | .arr _ => "[...]"
  | .obj _ => "object"

/-- Python truthiness of a parsed JSON value (`if response.get("error"):`). -/
def jTruthy : J → Bool
  | .null => false
  | .bool b => b
  | .num n => n != 0
  | .str s => s != ""
  | .arr xs => !xs.isEmpty
  | .obj fs => !fs.isEmpty

/-- The string `str(KeyError(k))` produced when a required envelope field
is missing: the key wrapped in single quotes. -/
def keyErrStr (k : String) : String := "\x27" ++ k ++ "\x27"

/-- Error raised by broker operations invoked while disconnected
(`RuntimeError("Broker not connected")`, the spec calls it
`NotConnectedError`). -/
inductive BErr where
  | notConnected

instance : DecidableEq BErr := fun a b => by
  cases a; cases b; exact isTrue rfl

/-- One handler invocation recorded during dispatch: which handler, which
message, and whether the handler raised (in which case `_process_queue`
catches the exception and prints it — `raised = true` is the "reported"
error). -/
structure Ev where
  hid : Nat
  msg : J
  raised : Bool

/-- Event for handler `h` receiving message `m`, with `r` recording
whether the handler raised on it. -/
def mkEv (h : Nat) (m : J) (r : Bool) : Ev := ⟨h, m, r⟩

/-- State of a `MemoryBroker` instance (`memory.py`):
`queues` is `self._queues` (name → FIFO of payloads), `consumers` is
`self._consumers` (name → set of handlers, here a duplicate-free list in
insertion order), `tasks` is `self._consumer_tasks` (each task is bound
to the (queue, handler) pair it polls), `connected` is `self._connected`.
`pubLog` and `log` are ghost instrumentation: `pubLog` records every
successful `publish(routing_key, message)` call, `log` records every
handler invocation performed by `_process_queue`. Handlers are
identified by `Nat` ids; the parameter `raises : Nat → J → Bool` gives
each handler's behaviour (whether it raises on a given message). -/
structure MemState where
  queues : List (String × List J)
  consumers : List (String × List Nat)
  tasks : List (String × Nat)
  connected : Bool
  pubLog : List (String × J)
  log : List Ev

/-- The freshly constructed `MemoryBroker()`: empty state, not connected. -/
def memInit : MemState := ⟨[], [], [], false, [], []⟩

/-- Dispatch loop body of `_process_queue`: pop each message in FIFO
order and invoke every handler of the snapshot `hs` (`consumers.copy()`)
on it; an exception from one handler is caught and reported (recorded as
`raised = true`) and the loop continues with the remaining handlers and
messages. -/
def drainLog (hs : List Nat) (raises : Nat → J → Bool) :
    List J → List Ev → List Ev
  | [], log => log
  | m :: ms, log =>
      drainLog hs raises ms (log ++ hs.map (fun h => mkEv h m (raises h m)))

/-- `MemoryBroker._process_queue(queue_name)`: while the queue is
non-empty and has at least one registered consumer, pop the oldest
message and broadcast it to a copy of the consumer set; handler
exceptions are caught and printed. With no consumers the loop body never
runs; otherwise the whole FIFO drains (the handlers reachable in the
claims do not mutate broker state). -/
def processQueue (raises : Nat → J → Bool) (s : MemState) (q : String) :
    MemState :=
  match lookupD s.consumers q with
  | [] => s
  | hs =>
      { s with
        queues := aupdate s.queues q []
        log := drainLog hs raises (lookupD s.queues q) s.log }

/-- `MemoryBroker.publish(routing_key, message)`: raises when not
connected; otherwise appends to the queue's FIFO and immediately runs
the dispatch loop for that queue. The ghost `pubLog` records the call. -/
def memPublish (raises : Nat → J → Bool) (s : MemState) (q : String) (m : J) :
    Except BErr MemState :=
  if s.connected then
    .ok (processQueue raises
      { s with
        queues := aupdate s.queues q (lookupD s.queues q ++ [m])
        pubLog := s.pubLog ++ [(q, m)] } q)
  else .error .notConnected

/-- Set insertion for `self._consumers[queue].add(handler)`. -/
def cinsertSet (xs : List Nat) (h : Nat) : List Nat :=
  if h ∈ xs then xs else xs ++ [h]

/-- `MemoryBroker.consume(queue, handler)`: raises when not connected;
otherwise adds the handler to the queue's consumer set and spawns one
consumer task bound to the (queue, handler) pair. -/
def memConsume (s : MemState) (q : String) (h : Nat) : Except BErr MemState :=
  if s.connected then
    .ok { s with
          consumers := aupdate s.consumers q (cinsertSet (lookupD s.consumers q) h)
          tasks := s.tasks ++ [(q, h)] }
  else .error .notConnected

/-- `MemoryBroker.declare_queue(queue_name)`: ensures the FIFO exists.
Note: the source performs no connectivity check here. -/
def memDeclare (s : MemState) (q : String) : Except BErr MemState :=
  .ok (if (alookup s.queues q).isSome then s
       else { s with queues := s.queues ++ [(q, [])] })

/-- Removal of a handler from a consumer set (`set.remove`, guarded by a
membership test in `_consumer_loop`'s cancellation branch, so removal of
an absent handler is a no-op). -/
def cremove (xs : List Nat) (h : Nat) : List Nat :=
  xs.filter (fun x => x ≠ h)

/-- Cleanup performed by one cancelled consumer task
(`_consumer_loop`'s `except asyncio.CancelledError` branch): the task
removes its own handler from its queue's consumer set. -/
def removeTask (c : List (String × List Nat)) (t : String × Nat) :
    List (String × List Nat) :=
  aupdate c t.1 (cremove (lookupD c t.1) t.2)

/-- Cleanup performed by all cancelled consumer tasks during
`disconnect`'s `gather`. -/
def removeTasks (c : List (String × List Nat)) (ts : List (String × Nat)) :
    List (String × List Nat) :=
  ts.foldl removeTask c

/-- `MemoryBroker.disconnect()`: cancels every consumer task and awaits
them (each removes its own registration on cancellation), clears the
task set, and clears the connected flag. -/
def memDisconnect (s : MemState) : MemState :=
  { s with
    consumers := removeTasks s.consumers s.tasks
    tasks := []
    connected := false }

/-- One iteration of a consumer task's loop body (`_consumer_loop`):
while the broker is connected and the handler is still registered, sleep
briefly and then run the dispatch loop for the queue. -/
def memLoopStep (raises : Nat → J → Bool) (s : MemState) (q : String)
    (h : Nat) : MemState :=
  if s.connected = true ∧ h ∈ lookupD s.consumers q then
    processQueue raises s q
  else s

/-- The operations that drive a `MemoryBroker`: its public API plus one
scheduler step of a consumer task, and the test-only `clear_queue`. -/
inductive MOp where
  | connect
  | disconnect
  | publish (q : String) (m : J)
  | consume (q : String) (h : Nat)
  | declare (q : String)
  | loopStep (q : String) (h : Nat)
  | clearQueue (q : String)

/-- State left by an operation whose `Except`-modelled exception
propagates to the caller: the broker state is unchanged. -/
def exceptD (s : MemState) : Except BErr MemState → MemState
  | .ok t => t
  | .error _ => s

/-- State transition of one broker operation. -/
def applyOp (raises : Nat → J → Bool) (s : MemState) : MOp → MemState
  | .connect => { s with connected := true }
  | .disconnect => memDisconnect s
  | .publish q m => exceptD s (memPublish raises s q m)
  | .consume q h => exceptD s (memConsume s q h)
  | .declare q => exceptD s (memDeclare s q)
  | .loopStep q h => memLoopStep raises s q h
  | .clearQueue q => { s with queues := aupdate s.queues q [] }

/-- Run a sequence of broker operations. -/
def applyOps (raises : Nat → J → Bool) (s : MemState) (ops : List MOp) :
    MemState :=
  ops.foldl (applyOp raises) s

/-- Broker states reachable from a fresh `MemoryBroker()` by its API and
consumer-task steps. -/
inductive ReachableMem (raises : Nat → J → Bool) : MemState → Prop
  | init : ReachableMem raises memInit
  | step {s : MemState} (op : MOp) :
      ReachableMem raises s → ReachableMem raises (applyOp raises s op)

/-- Handler invocations recorded for handler `h`, oldest first. -/
def evFor (h : Nat) (log : List Ev) : List Ev :=
  log.filter (fun e => e.hid == h)

/-- Messages delivered to handler `h`, oldest first (every invocation,
whether or not the handler raised). -/
def msgsFor (h : Nat) (log : List Ev) : List J :=
  (evFor h log).map Ev.msg

/-- Messages handler `h` processed without raising ("collected"). -/
def collectedFor (h : Nat) (log : List Ev) : List J :=
  ((evFor h log).filter (fun e => !e.raised)).map Ev.msg

/-! ### External-delegating broker (`amqp.py`)

Only the connectivity guards of `AMQPBroker` are needed by the claims;
the `aio_pika` collaborator (declared out of scope by the spec) is
abstracted to a trace of the calls forwarded to it. -/

/-- State of an `AMQPBroker` instance: its `self._connected` flag and a
ghost trace of the operations forwarded to the external `aio_pika`
channel. -/
structure AmqpState where
  connected : Bool
  actions : List String

/-- `AMQPBroker.publish`: raises `RuntimeError("Broker not connected")`
when not connected, otherwise builds an `aio_pika.Message` and forwards
it to the default exchange with the routing key. -/
def amqpPublish (s : AmqpState) (q : String) (_m : J) : Except BErr AmqpState :=
  if s.connected then
    .ok { s with actions := s.actions ++ ["publish " ++ q] }
  else .error .notConnected

/-- `AMQPBroker.declare_queue`: raises when not connected, otherwise
forwards the declaration to the channel. -/
def amqpDeclare (s : AmqpState) (q : String) : Except BErr AmqpState :=
  if s.connected then
    .ok { s with actions := s.actions ++ ["declare " ++ q] }
  else .error .notConnected

/-- `AMQPBroker.consume`: raises when not connected, otherwise declares
the queue, obtains it from the channel, and spawns a consumer task over
its message iterator. -/
def amqpConsume (s : AmqpState) (q : String) : Except BErr AmqpState :=
  if s.connected then
    .ok { s with actions := s.actions ++ ["declare " ++ q, "consume " ++ q] }
  else .error .notConnected

/-! ### RPC service layer (`service.py`) -/

/-- An entry of `Service._rpc_methods`: the bound callable invoked as
`await method(*args, **kwargs)`. It receives the positional arguments
and the keyword arguments and either returns a (JSON-serializable)
value or raises, carrying `str(e)`. -/
abbrev RpcMethod := List J → List (String × J) → Except String J

/-- The table `Service._rpc_methods`, name → bound callable. -/
abbrev MethodTable := List (String × RpcMethod)

/-- Reading a required envelope field: `request[k]` raises
`KeyError(k)` when missing. -/
def getReq (o : List (String × J)) (k : String) : Except String J :=
  match alookup o k with
  | some v => .ok v
  | none => .error (keyErrStr k)

/-- Lookup of `method_name in self._rpc_methods`: dict keys are strings,
so a non-string value is never found. -/
def invokeMethod (table : MethodTable) : J → Option RpcMethod
  | .str nm => alookup table nm
  | _ => none

/-- Unpacking `*args` of the parsed `args` value: a JSON array unpacks
to its elements, a string to its characters, an object to its keys;
other values raise `TypeError`. -/
def asArgs : J → Except String (List J)
  | .arr xs => .ok xs
  | .str s => .ok (s.toList.map (fun c => J.str (String.mk [c])))
  | .obj fs => .ok (fs.map (fun p => J.str p.1))
  | v => .error (jStr v ++ " object is not iterable")

/-- Unpacking `**kwargs` of the parsed `kwargs` value: must be a
mapping, anything else raises `TypeError`. -/
def asKwargs : J → Except String (List (String × J))
  | .obj fs => .ok fs
  | v => .error (jStr v ++ " object is not a mapping")

/-- The response dict built by `_handle_rpc_request`:
`{"request_id": rid, "result": result, "error": err}` (with `None`
encoded as JSON `null`). -/
def mkResponse (rid : J) (result : J) (err : J) : J :=
  J.obj [("request_id", rid), ("result", result), ("error", err)]

/-- Body of the `try` block of `Service._handle_rpc_request` on a parsed
request object `o`: read `method` (required), `args`/`kwargs` (optional,
defaulting to `[]`/`{}` via `request.get`), `request_id` and `reply_to`
(required); then either invoke the method found in the table and build a
success response, or build a "method not found" error response. Returns
the `(reply_to, response)` pair passed to `broker.publish`, or the
exception text when the body raises. -/
def handleRpcRequestBody (table : MethodTable) (o : List (String × J)) :
    Except String (J × J) :=
  match alookup o "method" with
  | none => .error (keyErrStr "method")
  | some method_name =>
    let args := (alookup o "args").getD (J.arr [])
    let kwargs := (alookup o "kwargs").getD (J.obj [])
    match alookup o "request_id" with
    | none => .error (keyErrStr "request_id")
    | some request_id =>
      match alookup o "reply_to" with
      | none => .error (keyErrStr "reply_to")
      | some reply_to =>
        match invokeMethod table method_name with
        | some f =>
          (match asArgs args with
           | .error e => .error e
           | .ok argList =>
             match asKwargs kwargs with
             | .error e => .error e
             | .ok kwList =>
               match f argList kwList with
               | .error e => .error e
               | .ok result =>
                   .ok (reply_to, mkResponse request_id result J.null))
        | none =>
            .ok (reply_to,
                 mkResponse request_id J.null
                   (J.str ("Method " ++ jStr method_name ++ " not found")))

/-- `Service._handle_rpc_request` on a message that parses to the JSON
object `o`: run the `try` body; on an exception, build an error response
carrying `str(e)`, with `request.get("request_id", "unknown")` as id,
and publish it to `request.get("reply_to", f"rpc.{name}.reply")`.
The returned pair is exactly the `(routing_key, payload)` that the
handler passes to `self.broker.publish`. -/
def handleRpcRequest (selfName : String) (table : MethodTable)
    (o : List (String × J)) : J × J :=
  match handleRpcRequestBody table o with
  | .ok r => r
  | .error e =>
      ((alookup o "reply_to").getD (J.str ("rpc." ++ selfName ++ ".reply")),
       mkResponse ((alookup o "request_id").getD (J.str "unknown"))
         J.null (J.str e))

/-- A pending-request result slot (`asyncio.Future`): unresolved, or
resolved with the parsed response it was `set_result` with. -/
inductive Fut where
  | pending
  | resolved (v : J)

/-- `Service._pending_requests`: request_id → result slot. -/
abbrev PendingTable := List (String × Fut)

/-- Resolving a future in place (`future.set_result(response)`). -/
def presolve : PendingTable → String → J → PendingTable
  | [], _, _ => []
  | (k, f) :: ps, rid, v =>
      if k = rid then (k, Fut.resolved v) :: ps
      else (k, f) :: presolve ps rid v

/-- `Service._handle_rpc_response` on a message parsing to `msg`: read
`response["request_id"]`; if it is a key of the pending-request table
and that future is not yet done, resolve the future with the whole
parsed response. Any exception (missing field, non-dict payload) is
caught and printed, and a missing or already-resolved entry is silently
ignored — in all those cases the table is unchanged. -/
def handleRpcResponse (p : PendingTable) (msg : J) : PendingTable :=
  match msg with
  | J.obj o =>
    (match alookup o "request_id" with
     | some (J.str rid) =>
       (match alookup p rid with
        | some Fut.pending => presolve p rid msg
        | _ => p)
     | some _ => p
     | none => p)
  | _ => p

/-- Failures surfaced by `Service.call_rpc`: the `asyncio.TimeoutError`
from `wait_for` (the spec's `RpcTimeoutError`), the
`Exception(f"RPC Error: ...")` raised on a response carrying an error
(the spec's `RpcError`), and residual Python errors on malformed
responses. -/
inductive RpcFail where
  | rpcTimeout
  | rpcError (msg : String)
  | pyError (msg : String)

/-- How the `await asyncio.wait_for(response_future, timeout=30.0)`
completes: the timeout elapsed with no matching response, or the future
was resolved with a parsed response. -/
inductive AwaitOutcome where
  | timeout
  | resolved (resp : J)

/-- The `wait_for` timeout of `call_rpc`, in seconds (`timeout=30.0`). -/
def rpcCallTimeout : Nat := 30

/-- Deleting a pending entry (`del self._pending_requests[request_id]`,
guarded by a membership test). -/
def perase (p : PendingTable) (rid : String) : PendingTable :=
  p.filter (fun e => e.1 != rid)

/-- Tail of `Service.call_rpc` from the `await wait_for` on: applied to
the pending table as it stands when the await completes. On timeout the
`asyncio.TimeoutError` propagates; on a response whose `error` field is
truthy, `Exception("RPC Error: ...")` is raised; otherwise
`response["result"]` is returned. The `finally` block removes the
pending entry on every one of these paths. -/
def callRpcFinish (p : PendingTable) (rid : String)
    (outcome : AwaitOutcome) : Except RpcFail J × PendingTable :=
  let res : Except RpcFail J :=
    match outcome with
    | .timeout => .error .rpcTimeout
    | .resolved resp =>
      match resp with
      | J.obj ro =>
        let err := (alookup ro "error").getD J.null
        if jTruthy err then .error (.rpcError ("RPC Error: " ++ jStr err))
        else
          match alookup ro "result" with
          | some v => .ok v
          | none => .error (.pyError (keyErrStr "result"))
      | _ => .error (.pyError "response has no attribute get")
  (res, perase p rid)

/-- The reply queue name generated by `call_rpc`:
`f"rpc.{self.name}.reply.{request_id}"`. -/
def replyQueueName (svcName rid : String) : String :=
  "rpc." ++ svcName ++ ".reply." ++ rid

/-- The well-known inbound queue of a service: `f"rpc.{service_name}"`. -/
def rpcQueueName (svcName : String) : String := "rpc." ++ svcName

/-- The request dict built by `call_rpc`. -/
def requestEnvelope (method : String) (args : List J)
    (kwargs : List (String × J)) (rid : String) (replyTo : String) : J :=
  J.obj [("method", J.str method), ("args", J.arr args),
         ("kwargs", J.obj kwargs), ("request_id", J.str rid),
         ("reply_to", J.str replyTo)]

/-- The broker operations performed by `Service.call_rpc` before it
awaits the response: register `self._handle_rpc_response` (handler id
`hResp`) as a consumer of the fresh reply queue, then publish the
request envelope to the target service's inbound queue. Nothing in
`call_rpc` ever deregisters that consumer or stops its task. -/
def callRpcBrokerSteps (raises : Nat → J → Bool) (bs : MemState)
    (svcName target method : String) (args : List J)
    (kwargs : List (String × J)) (rid : String) (hResp : Nat) :
    Except BErr MemState := do
  let rq := replyQueueName svcName rid
  let bs1 ← memConsume bs rq hResp
  memPublish raises bs1 (rpcQueueName target)
    (requestEnvelope method args kwargs rid rq)

/-! ### Association-list lemmas -/

theorem alookup_aupdate_self {α : Type} (xs : List (String × α)) (k : String)
    (v : α) : alookup (aupdate xs k v) k = some v := by
  induction xs with
  | nil => simp [aupdate, alookup]
  | cons p xs ih =>
    obtain ⟨k', v'⟩ := p
    by_cases h : k' = k
    · simp [aupdate, h, alookup]
    · simp [aupdate, h, alookup, ih]

theorem alookup_aupdate_ne {α : Type} (xs : List (String × α))
    (k k' : String) (v : α) (h : k' ≠ k) :
    alookup (aupdate xs k v) k' = alookup xs k' := by
  induction xs with
  | nil => simp [aupdate, alookup, Ne.symm h]
  | cons p xs ih =>
    obtain ⟨k₀, v₀⟩ := p
    by_cases h0 : k₀ = k
    · subst h0
      simp [aupdate, alookup, Ne.symm h]
    · simp [aupdate, h0, alookup, ih]

theorem lookupD_aupdate_self {α : Type} (xs : List (String × List α))
    (k : String) (v : List α) : lookupD (aupdate xs k v) k = v := by
  simp [lookupD, alookup_aupdate_self]

theorem lookupD_aupdate_ne {α : Type} (xs : List (String × List α))
    (k k' : String) (v : List α) (h : k' ≠ k) :
    lookupD (aupdate xs k v) k' = lookupD xs k' := by
  simp [lookupD, alookup_aupdate_ne _ _ _ _ h]

/-! ### Dispatch-loop lemmas -/

theorem processQueue_consumers (raises : Nat → J → Bool) (s : MemState)
    (q : String) : (processQueue raises s q).consumers = s.consumers := by
  unfold processQueue; split <;> rfl

theorem processQueue_tasks (raises : Nat → J → Bool) (s : MemState)
    (q : String) : (processQueue raises s q).tasks = s.tasks := by
  unfold processQueue; split <;> rfl

theorem processQueue_connected (raises : Nat → J → Bool) (s : MemState)
    (q : String) : (processQueue raises s q).connected = s.connected := by
  unfold processQueue; split <;> rfl

theorem processQueue_pubLog (raises : Nat → J → Bool) (s : MemState)
    (q : String) : (processQueue raises s q).pubLog = s.pubLog := by
  unfold processQueue; split <;> rfl

theorem drainLog_mono (hs : List Nat) (raises : Nat → J → Bool)
    (ms : List J) (log : List Ev) (e : Ev) (he : e ∈ log) :
    e ∈ drainLog hs raises ms log := by
  induction ms generalizing log with
  | nil => exact he
  | cons m ms ih =>
    exact ih _ (List.mem_append_left _ he)

theorem mem_drainLog (hs : List Nat) (raises : Nat → J → Bool)
    (h : Nat) (m : J) (hh : h ∈ hs) :
    ∀ (ms : List J) (log : List Ev), m ∈ ms →
      mkEv h m (raises h m) ∈ drainLog hs raises ms log := by
  intro ms
  induction ms with
  | nil => intro log hm; cases hm
  | cons m' ms ih =>
    intro log hm
    simp only [drainLog]
    rcases List.mem_cons.mp hm with rfl | hm'
    · exact drainLog_mono hs raises ms _ _
        (List.mem_append_right _ (List.mem_map.mpr ⟨h, hh, rfl⟩))
    · exact ih _ hm'

theorem drainLog_single (h : Nat) (raises : Nat → J → Bool) (ms : List J)
    (log : List Ev) :
    drainLog [h] raises ms log
      = log ++ ms.map (fun m => mkEv h m (raises h m)) := by
  induction ms generalizing log with
  | nil => simp [drainLog]
  | cons m ms ih => simp [drainLog, ih]

theorem evFor_append (h : Nat) (l l' : List Ev) :
    evFor h (l ++ l') = evFor h l ++ evFor h l' := by
  simp [evFor, List.filter_append]

theorem msgsFor_append (h : Nat) (l l' : List Ev) :
    msgsFor h (l ++ l') = msgsFor h l ++ msgsFor h l' := by
  simp [msgsFor, evFor_append]

theorem msgsFor_map_self (h : Nat) (raises : Nat → J → Bool) (ms : List J) :
    msgsFor h (ms.map (fun m => mkEv h m (raises h m))) = ms := by
  induction ms with
  | nil => rfl
  | cons m ms ih => simp [msgsFor, evFor, mkEv, List.filter] at ih ⊢; exact ih

/-! ### Broker state-machine lemmas -/

theorem applyOps_nil (raises : Nat → J → Bool) (s : MemState) :
    applyOps raises s [] = s := rfl

theorem applyOps_cons (raises : Nat → J → Bool) (s : MemState) (op : MOp)
    (ops : List MOp) :
    applyOps raises s (op :: ops) = applyOps raises (applyOp raises s op) ops :=
  rfl

/-- Membership in the consumer set after a `set.add`. -/
theorem mem_cinsertSet_of_mem (xs : List Nat) (h h' : Nat) (hm : h ∈ xs) :
    h ∈ cinsertSet xs h' := by
  unfold cinsertSet
  split
  · exact hm
  · exact List.mem_append_left _ hm

theorem mem_cinsertSet_self (xs : List Nat) (h : Nat) :
    h ∈ cinsertSet xs h := by
  unfold cinsertSet
  split
  · assumption
  · exact List.mem_append_right _ (List.mem_singleton.mpr rfl)

theorem mem_of_mem_cinsertSet (xs : List Nat) (h h' : Nat)
    (hm : h ∈ cinsertSet xs h') : h ∈ xs ∨ h = h' := by
  unfold cinsertSet at hm
  split at hm
  · exact Or.inl hm
  · rcases List.mem_append.mp hm with hm' | hm'
    · exact Or.inl hm'
    · exact Or.inr (List.mem_singleton.mp hm')

theorem not_mem_cremove (xs : List Nat) (h : Nat) : h ∉ cremove xs h := by
  intro hm
  have := (List.mem_filter.mp hm).2
  simp at this

theorem mem_of_mem_cremove (xs : List Nat) (h h' : Nat)
    (hm : h ∈ cremove xs h') : h ∈ xs :=
  (List.mem_filter.mp hm).1

theorem lookupD_removeTask_self (c : List (String × List Nat))
    (t : String × Nat) :
    lookupD (removeTask c t) t.1 = cremove (lookupD c t.1) t.2 :=
  lookupD_aupdate_self _ _ _

theorem lookupD_removeTask_ne (c : List (String × List Nat))
    (t : String × Nat) (q : String) (h : q ≠ t.1) :
    lookupD (removeTask c t) q = lookupD c q :=
  lookupD_aupdate_ne _ _ _ _ h

/-- The cancellation cleanups only ever remove handlers. -/
theorem mem_of_mem_removeTasks (ts : List (String × Nat)) :
    ∀ (c : List (String × List Nat)) (q : String) (h : Nat),
      h ∈ lookupD (removeTasks c ts) q → h ∈ lookupD c q := by
  induction ts with
  | nil => intro c q h hm; exact hm
  | cons t ts ih =>
    intro c q h hm
    have hm' := ih (removeTask c t) q h hm
    by_cases hq : q = t.1
    · subst hq
      rw [lookupD_removeTask_self] at hm'
      exact mem_of_mem_cremove _ _ _ hm'
    · rwa [lookupD_removeTask_ne _ _ _ hq] at hm'

/-- A handler whose task is among the cancelled tasks is removed by the
cancellation cleanups. -/
theorem not_mem_removeTasks (ts : List (String × Nat)) :
    ∀ (c : List (String × List Nat)) (q : String) (h : Nat),
      (q, h) ∈ ts → h ∉ lookupD (removeTasks c ts) q := by
  induction ts with
  | nil => intro c q h hm; cases hm
  | cons t ts ih =>
    intro c q h hm hmem
    rcases List.mem_cons.mp hm with rfl | hm'
    · have hm'' := mem_of_mem_removeTasks ts (removeTask c (q, h)) q h hmem
      rw [lookupD_removeTask_self] at hm''
      exact not_mem_cremove _ _ hm''
    · exact ih (removeTask c t) q h hm' hmem

/-- Under the invariant "every registered handler has a task", cancelling
all tasks empties every consumer set. -/
theorem removeTasks_empty_of_inv (ts : List (String × Nat)) :
    ∀ c : List (String × List Nat),
      (∀ q h, h ∈ lookupD c q → (q, h) ∈ ts) →
      ∀ q, lookupD (removeTasks c ts) q = [] := by
  induction ts with
  | nil =>
    intro c hinv q
    rcases he : lookupD c q with _ | ⟨h0, l0⟩
    · exact he
    · exact absurd (hinv q h0 (by rw [he]; exact List.mem_cons_self _ _)) (by simp)
  | cons t ts ih =>
    intro c hinv q
    obtain ⟨q0, h0⟩ := t
    refine ih (removeTask c (q0, h0)) ?_ q
    intro q' h' hm
    by_cases hq : q' = q0
    · subst hq
      rw [lookupD_removeTask_self] at hm
      have h1 : h' ∈ lookupD c q' := mem_of_mem_cremove _ _ _ hm
      have h2 : h' ≠ h0 := by
        intro he; subst he
        exact not_mem_cremove _ _ hm
      rcases List.mem_cons.mp (hinv q' h' h1) with he | hts
      · cases he; exact absurd rfl h2
      · exact hts
    · rw [lookupD_removeTask_ne _ _ _ hq] at hm
      rcases List.mem_cons.mp (hinv q' h' hm) with he | hts
      · cases he; exact absurd rfl hq
      · exact hts

/-- The invariant of the in-process broker: every handler registered in
some queue's consumer set has a live consumer task bound to that
(queue, handler) pair. `consume` is the only way to register a handler
and always spawns the task. -/
def ConsInv (s : MemState) : Prop :=
  ∀ q h, h ∈ lookupD s.consumers q → (q, h) ∈ s.tasks

/-- Publishing never changes the consumer registrations. -/
theorem publishStep_consumers (raises : Nat → J → Bool) (s : MemState)
    (q0 : String) (m : J) :
    (exceptD s (memPublish raises s q0 m)).consumers = s.consumers := by
  by_cases hc : s.connected = true <;>
    simp [memPublish, exceptD, hc, processQueue_consumers]

/-- Publishing never changes the consumer-task set. -/
theorem publishStep_tasks (raises : Nat → J → Bool) (s : MemState)
    (q0 : String) (m : J) :
    (exceptD s (memPublish raises s q0 m)).tasks = s.tasks := by
  by_cases hc : s.connected = true <;>
    simp [memPublish, exceptD, hc, processQueue_tasks]

/-- Declaring a queue never changes consumers. -/
theorem declareStep_consumers (s : MemState) (q0 : String) :
    (exceptD s (memDeclare s q0)).consumers = s.consumers := by
  by_cases hd : (alookup s.queues q0).isSome <;>
    simp [memDeclare, exceptD, hd]

/-- Declaring a queue never changes the task set. -/
theorem declareStep_tasks (s : MemState) (q0 : String) :
    (exceptD s (memDeclare s q0)).tasks = s.tasks := by
  by_cases hd : (alookup s.queues q0).isSome <;>
    simp [memDeclare, exceptD, hd]

/-- A consumer-task iteration never changes consumers. -/
theorem loopStep_consumers (raises : Nat → J → Bool) (s : MemState)
    (q0 : String) (h0 : Nat) :
    (memLoopStep raises s q0 h0).consumers = s.consumers := by
  unfold memLoopStep
  split
  · exact processQueue_consumers raises s q0
  · rfl

/-- A consumer-task iteration never changes the task set. -/
theorem loopStep_tasks (raises : Nat → J → Bool) (s : MemState)
    (q0 : String) (h0 : Nat) :
    (memLoopStep raises s q0 h0).tasks = s.tasks := by
  unfold memLoopStep
  split
  · exact processQueue_tasks raises s q0
  · rfl

/-- A connected `consume` adds the handler and its task. -/
theorem consumeStep_eq (s : MemState) (q0 : String) (h0 : Nat)
    (hc : s.connected = true) :
    exceptD s (memConsume s q0 h0)
      = { s with
          consumers := aupdate s.consumers q0
            (cinsertSet (lookupD s.consumers q0) h0)
          tasks := s.tasks ++ [(q0, h0)] } := by
  simp [memConsume, exceptD, hc]

/-- A disconnected `consume` raises and leaves the state unchanged. -/
theorem consumeStep_eq_of_not (s : MemState) (q0 : String) (h0 : Nat)
    (hc : ¬s.connected = true) : exceptD s (memConsume s q0 h0) = s := by
  simp [memConsume, exceptD, hc]

theorem consInv_applyOp (raises : Nat → J → Bool) (s : MemState) (op : MOp)
    (hinv : ConsInv s) : ConsInv (applyOp raises s op) := by
  cases op with
  | connect => exact hinv
  | disconnect =>
    intro q h hm
    have hm' : h ∈ lookupD (removeTasks s.consumers s.tasks) q := hm
    rw [removeTasks_empty_of_inv s.tasks s.consumers hinv q] at hm'
    cases hm'
  | publish q0 m =>
    intro q h hm
    have hm' : h ∈ lookupD (exceptD s (memPublish raises s q0 m)).consumers q :=
      hm
    rw [publishStep_consumers] at hm'
    show (q, h) ∈ (exceptD s (memPublish raises s q0 m)).tasks
    rw [publishStep_tasks]
    exact hinv q h hm'
  | consume q0 h0 =>
    intro q h hm
    have hm' : h ∈ lookupD (exceptD s (memConsume s q0 h0)).consumers q := hm
    show (q, h) ∈ (exceptD s (memConsume s q0 h0)).tasks
    by_cases hc : s.connected = true
    · rw [consumeStep_eq s q0 h0 hc] at hm' ⊢
      have hm'' : h ∈ lookupD
          (aupdate s.consumers q0 (cinsertSet (lookupD s.consumers q0) h0))
          q := hm'
      show (q, h) ∈ s.tasks ++ [(q0, h0)]
      by_cases hq : q = q0
      · subst hq
        rw [lookupD_aupdate_self] at hm''
        rcases mem_of_mem_cinsertSet _ _ _ hm'' with hmo | rfl
        · exact List.mem_append_left _ (hinv q h hmo)
        · exact List.mem_append_right _ (List.mem_singleton.mpr rfl)
      · rw [lookupD_aupdate_ne _ _ _ _ hq] at hm''
        exact List.mem_append_left _ (hinv q h hm'')
    · rw [consumeStep_eq_of_not s q0 h0 hc] at hm' ⊢
      exact hinv q h hm'
  | declare q0 =>
    intro q h hm
    have hm' : h ∈ lookupD (exceptD s (memDeclare s q0)).consumers q := hm
    rw [declareStep_consumers] at hm'
    show (q, h) ∈ (exceptD s (memDeclare s q0)).tasks
    rw [declareStep_tasks]
    exact hinv q h hm'
  | loopStep q0 h0 =>
    intro q h hm
    have hm' : h ∈ lookupD (memLoopStep raises s q0 h0).consumers q := hm
    rw [loopStep_consumers] at hm'
    show (q, h) ∈ (memLoopStep raises s q0 h0).tasks
    rw [loopStep_tasks]
    exact hinv q h hm'
  | clearQueue q0 =>
    intro q h hm
    exact hinv q h hm

theorem consInv_reachable (raises : Nat → J → Bool) (s : MemState)
    (hr : ReachableMem raises s) : ConsInv s := by
  induction hr with
  | init =>
    intro q h hm
    simp [memInit, lookupD, alookup] at hm
  | step op _ ih => exact consInv_applyOp raises _ op ih

/-- Every broker operation other than `disconnect` preserves a
registered (queue, handler) consumer and its task. -/
theorem applyOp_keeps_consumer (raises : Nat → J → Bool) (s : MemState)
    (op : MOp) (q : String) (h : Nat) (hop : op ≠ MOp.disconnect)
    (hc : h ∈ lookupD s.consumers q) (ht : (q, h) ∈ s.tasks) :
    h ∈ lookupD (applyOp raises s op).consumers q
    ∧ (q, h) ∈ (applyOp raises s op).tasks := by
  cases op with
  | connect => exact ⟨hc, ht⟩
  | disconnect => exact absurd rfl hop
  | publish q0 m =>
    show h ∈ lookupD (exceptD s (memPublish raises s q0 m)).consumers q
      ∧ (q, h) ∈ (exceptD s (memPublish raises s q0 m)).tasks
    rw [publishStep_consumers, publishStep_tasks]
    exact ⟨hc, ht⟩
  | consume q0 h0 =>
    show h ∈ lookupD (exceptD s (memConsume s q0 h0)).consumers q
      ∧ (q, h) ∈ (exceptD s (memConsume s q0 h0)).tasks
    by_cases hcn : s.connected = true
    · rw [consumeStep_eq s q0 h0 hcn]
      constructor
      · show h ∈ lookupD
            (aupdate s.consumers q0 (cinsertSet (lookupD s.consumers q0) h0))
            q
        by_cases hq : q = q0
        · subst hq
          rw [lookupD_aupdate_self]
          exact mem_cinsertSet_of_mem _ _ _ hc
        · rw [lookupD_aupdate_ne _ _ _ _ hq]
          exact hc
      · exact List.mem_append_left _ ht
    · rw [consumeStep_eq_of_not s q0 h0 hcn]
      exact ⟨hc, ht⟩
  | declare q0 =>
    show h ∈ lookupD (exceptD s (memDeclare s q0)).consumers q
      ∧ (q, h) ∈ (exceptD s (memDeclare s q0)).tasks
    rw [declareStep_consumers, declareStep_tasks]
    exact ⟨hc, ht⟩
  | loopStep q0 h0 =>
    show h ∈ lookupD (memLoopStep raises s q0 h0).consumers q
      ∧ (q, h) ∈ (memLoopStep raises s q0 h0).tasks
    rw [loopStep_consumers, loopStep_tasks]
    exact ⟨hc, ht⟩
  | clearQueue q0 => exact ⟨hc, ht⟩

/-- A registered consumer and its task survive any sequence of broker
operations that does not contain `disconnect`. -/
theorem applyOps_keeps_consumer (raises : Nat → J → Bool) (q : String)
    (h : Nat) :
    ∀ (ops : List MOp) (s : MemState), (∀ op ∈ ops, op ≠ MOp.disconnect) →
      h ∈ lookupD s.consumers q → (q, h) ∈ s.tasks →
      h ∈ lookupD (applyOps raises s ops).consumers q
      ∧ (q, h) ∈ (applyOps raises s ops).tasks := by
  intro ops
  induction ops with
  | nil => intro s _ hc ht; exact ⟨hc, ht⟩
  | cons op ops ih =>
    intro s hops hc ht
    rw [applyOps_cons]
    have hstep := applyOp_keeps_consumer raises s op q h
      (hops op (List.mem_cons_self _ _)) hc ht
    exact ih _ (fun o ho => hops o (List.mem_cons_of_mem _ ho))
      hstep.1 hstep.2

/-- The publish calls for a batch of messages, in order. -/
def pubOps (q : String) (ms : List J) : List MOp := ms.map (MOp.publish q)

/-- Publishing a batch to a queue with no registered consumer leaves the
consumer set, task set and dispatch log untouched and appends the batch
to the queue's FIFO in order. -/
theorem pubBatch_state (raises : Nat → J → Bool) (q : String) :
    ∀ (ms : List J) (s : MemState), s.connected = true →
      lookupD s.consumers q = [] →
      (applyOps raises s (pubOps q ms)).consumers = s.consumers
      ∧ (applyOps raises s (pubOps q ms)).connected = true
      ∧ (applyOps raises s (pubOps q ms)).log = s.log
      ∧ (applyOps raises s (pubOps q ms)).tasks = s.tasks
      ∧ lookupD (applyOps raises s (pubOps q ms)).queues q
          = lookupD s.queues q ++ ms := by
  intro ms
  induction ms with
  | nil =>
    intro s h hc
    exact ⟨rfl, h, rfl, rfl, by simp [applyOps, pubOps]⟩
  | cons m ms ih =>
    intro s h hc
    have hstep : applyOp raises s (MOp.publish q m)
        = { s with
            queues := aupdate s.queues q (lookupD s.queues q ++ [m])
            pubLog := s.pubLog ++ [(q, m)] } := by
      simp [applyOp, exceptD, memPublish, h, processQueue, hc]
    have hord : pubOps q (m :: ms) = MOp.publish q m :: pubOps q ms := rfl
    rw [hord, applyOps_cons, hstep]
    obtain ⟨e1, e2, e3, e4, e5⟩ :=
      ih { s with
           queues := aupdate s.queues q (lookupD s.queues q ++ [m])
           pubLog := s.pubLog ++ [(q, m)] } h hc
    refine ⟨e1.trans rfl, e2, e3.trans rfl, e4.trans rfl, ?_⟩
    rw [e5]
    show lookupD (aupdate s.queues q (lookupD s.queues q ++ [m])) q ++ ms
      = lookupD s.queues q ++ (m :: ms)
    rw [lookupD_aupdate_self, List.append_assoc]
    rfl

/-- Every message in a queue's FIFO reaches every currently registered
handler when the dispatch loop runs. -/
theorem mem_processQueue_log (raises : Nat → J → Bool) (s : MemState)
    (q : String) (h : Nat) (m : J) (hh : h ∈ lookupD s.consumers q)
    (hm : m ∈ lookupD s.queues q) :
    mkEv h m (raises h m) ∈ (processQueue raises s q).log := by
  rcases hcs : lookupD s.consumers q with _ | ⟨h0, hs0⟩
  · rw [hcs] at hh; cases hh
  · have hpq : processQueue raises s q
        = { s with queues := aupdate s.queues q []
                   log := drainLog (h0 :: hs0) raises (lookupD s.queues q)
                     s.log } := by
      simp [processQueue, hcs]
    rw [hpq]
    show mkEv h m (raises h m)
      ∈ drainLog (h0 :: hs0) raises (lookupD s.queues q) s.log
    rw [hcs] at hh
    exact mem_drainLog _ raises h m hh _ _ hm

/-! ### Pending-table lemmas -/

theorem alookup_perase (p : PendingTable) (rid : String) :
    alookup (perase p rid) rid = none := by
  induction p with
  | nil => rfl
  | cons e p ih =>
    obtain ⟨k, f⟩ := e
    by_cases h : k = rid
    · simpa [perase, List.filter_cons, h] using ih
    · simpa [perase, List.filter_cons, h, alookup] using ih

theorem alookup_presolve_ne (p : PendingTable) (rid : String) (v : J)
    (rid' : String) (h : rid' ≠ rid) :
    alookup (presolve p rid v) rid' = alookup p rid' := by
  induction p with
  | nil => rfl
  | cons e p ih =>
    obtain ⟨k, f⟩ := e
    by_cases hk : k = rid
    · subst hk
      simp [presolve, alookup, Ne.symm h]
    · simp [presolve, hk, alookup, ih]

/-- Publishing while connected succeeds and records the `(routing_key,
payload)` pair in the publish trace. -/
theorem memPublish_pubLog (raises : Nat → J → Bool) (s : MemState)
    (q : String) (m : J) (h : s.connected = true) :
    ∃ s', memPublish raises s q m = Except.ok s'
      ∧ s'.pubLog = s.pubLog ++ [(q, m)] := by
  have hpub : memPublish raises s q m
      = Except.ok (processQueue raises
          { s with queues := aupdate s.queues q (lookupD s.queues q ++ [m]),
                   pubLog := s.pubLog ++ [(q, m)] } q) := by
    simp [memPublish, h]
  exact ⟨_, hpub, by rw [processQueue_pubLog]⟩

/-! ### Claim theorems -/

/-- C1: for every service whose RPC method table contains method `m` and
every request envelope with well-formed `args`, `kwargs`, `request_id`
and `reply_to` naming `m`, `_handle_rpc_request` publishes to the
envelope's `reply_to` a response whose `request_id` equals the request's,
whose `error` is absent (`null`), and whose `result` is the value of
invoking `m` directly on the request's `args`/`kwargs`; moreover the
in-process broker, when connected, records exactly that publish. -/
theorem c1_rpc_roundtrip (selfName : String) (table : MethodTable)
    (o : List (String × J)) (m : String) (f : RpcMethod) (args : List J)
    (kwargs : List (String × J)) (rid : J) (rto : String) (v : J)
    (hm : alookup o "method" = some (J.str m))
    (hf : alookup table m = some f)
    (ha : alookup o "args" = some (J.arr args))
    (hk : alookup o "kwargs" = some (J.obj kwargs))
    (hr : alookup o "request_id" = some rid)
    (ht : alookup o "reply_to" = some (J.str rto))
    (hv : f args kwargs = Except.ok v) :
    handleRpcRequest selfName table o = (J.str rto, mkResponse rid v J.null)
    ∧ ∀ (raises : Nat → J → Bool) (bs : MemState), bs.connected = true →
        ∃ bs', memPublish raises bs rto (mkResponse rid v J.null)
            = Except.ok bs'
          ∧ bs'.pubLog = bs.pubLog ++ [(rto, mkResponse rid v J.null)] := by
  constructor
  · simp [handleRpcRequest, handleRpcRequestBody, hm, hf, ha, hk, hr, ht,
      hv, invokeMethod, asArgs, asKwargs]
  · intro raises bs hb
    exact memPublish_pubLog raises bs rto (mkResponse rid v J.null) hb

/-- Witness for C1 at a concrete service and request. -/
theorem c1_rpc_roundtrip_witness :
    handleRpcRequest "user" [("hello", fun a _ => Except.ok (J.arr a))]
      [("method", J.str "hello"), ("args", J.arr [J.str "Alice"]),
       ("kwargs", J.obj []), ("request_id", J.str "id1"),
       ("reply_to", J.str "rq")]
      = (J.str "rq", mkResponse (J.str "id1") (J.arr [J.str "Alice"]) J.null)
    ∧ ∃ bs', memPublish (fun _ _ => false) { memInit with connected := true }
          "rq" (mkResponse (J.str "id1") (J.arr [J.str "Alice"]) J.null)
          = Except.ok bs'
        ∧ bs'.pubLog
          = ({ memInit with connected := true } : MemState).pubLog
            ++ [("rq", mkResponse (J.str "id1") (J.arr [J.str "Alice"]) J.null)] := by
  have T := c1_rpc_roundtrip "user"
    [("hello", fun a _ => Except.ok (J.arr a))]
    [("method", J.str "hello"), ("args", J.arr [J.str "Alice"]),
     ("kwargs", J.obj []), ("request_id", J.str "id1"),
     ("reply_to", J.str "rq")]
    "hello" (fun a _ => Except.ok (J.arr a)) [J.str "Alice"] []
    (J.str "id1") "rq" (J.arr [J.str "Alice"])
    rfl rfl rfl rfl rfl rfl rfl
  exact ⟨T.1, T.2 (fun _ _ => false) { memInit with connected := true } rfl⟩

/-- C4 counterexample: the in-process broker's `declare_queue` succeeds
on a freshly constructed, never-connected broker (it creates the queue
instead of failing with the not-connected error). -/
theorem c4_counterexample :
    memInit.connected = false
    ∧ memDeclare memInit "q" = Except.ok { memInit with queues := [("q", [])] } :=
  ⟨rfl, rfl⟩

/-- C4 (amended): before `connect()`, `publish` and `consume` fail with
the not-connected error in both broker implementations, and
`declare_queue` fails in the external-delegating (AMQP) broker; the
in-process broker's `declare_queue` performs no connectivity check and
succeeds (ensuring the queue exists) even while disconnected. -/
theorem c4_not_connected_guards (raises : Nat → J → Bool) (s : MemState)
    (sa : AmqpState) (q : String) (m : J) (h : Nat)
    (hs : s.connected = false) (hsa : sa.connected = false) :
    memPublish raises s q m = Except.error BErr.notConnected
    ∧ memConsume s q h = Except.error BErr.notConnected
    ∧ amqpPublish sa q m = Except.error BErr.notConnected
    ∧ amqpConsume sa q = Except.error BErr.notConnected
    ∧ amqpDeclare sa q = Except.error BErr.notConnected
    ∧ ∃ s', memDeclare s q = Except.ok s' := by
  refine ⟨?_, ?_, ?_, ?_, ?_, ⟨_, rfl⟩⟩ <;>
    simp [memPublish, memConsume, amqpPublish, amqpConsume, amqpDeclare,
      hs, hsa]

/-- Witness for the amended C4 at a fresh broker of each kind. -/
theorem c4_not_connected_guards_witness :
    memPublish (fun _ _ => false) memInit "q" J.null
        = Except.error BErr.notConnected
    ∧ memConsume memInit "q" 0 = Except.error BErr.notConnected
    ∧ amqpPublish ⟨false, []⟩ "q" J.null = Except.error BErr.notConnected
    ∧ amqpConsume ⟨false, []⟩ "q" = Except.error BErr.notConnected
    ∧ amqpDeclare ⟨false, []⟩ "q" = Except.error BErr.notConnected
    ∧ ∃ s', memDeclare memInit "q" = Except.ok s' :=
  c4_not_connected_guards (fun _ _ => false) memInit ⟨false, []⟩ "q" J.null 0
    rfl rfl

/-- C5: a `call_rpc` whose `wait_for` expires fails with the timeout
error; the timeout window is 30 time units; and on every exit path of
the call (result, remote error, or timeout) the `finally` block leaves
no entry for the call's `request_id` in the pending-request table. -/
theorem c5_call_rpc_timeout_cleanup (p : PendingTable) (rid : String) :
    (callRpcFinish p rid AwaitOutcome.timeout).1
      = Except.error RpcFail.rpcTimeout
    ∧ rpcCallTimeout = 30
    ∧ ∀ outcome : AwaitOutcome,
        alookup (callRpcFinish p rid outcome).2 rid = none := by
  refine ⟨rfl, rfl, ?_⟩
  intro outcome
  show alookup (perase p rid) rid = none
  exact alookup_perase p rid

/-- C6: a response envelope whose `request_id` is absent from the
pending-request table, or whose entry is already resolved, leaves the
table unchanged; and resolving an entry never changes any other entry. -/
theorem c6_response_at_most_once (o : List (String × J)) (rid : String)
    (hreq : alookup o "request_id" = some (J.str rid)) :
    (∀ p : PendingTable, alookup p rid = none
        → handleRpcResponse p (J.obj o) = p)
    ∧ (∀ (p : PendingTable) (v : J),
        alookup p rid = some (Fut.resolved v)
        → handleRpcResponse p (J.obj o) = p)
    ∧ (∀ (p : PendingTable) (rid' : String), rid' ≠ rid →
        alookup (handleRpcResponse p (J.obj o)) rid' = alookup p rid') := by
  refine ⟨?_, ?_, ?_⟩
  · intro p hp; simp [handleRpcResponse, hreq, hp]
  · intro p v hp; simp [handleRpcResponse, hreq, hp]
  · intro p rid' hne
    simp only [handleRpcResponse, hreq]
    rcases hp : alookup p rid with _ | f
    · rfl
    · cases f with
      | pending => exact alookup_presolve_ne p rid (J.obj o) rid' hne
      | resolved v => rfl

/-- Witness for C6: an unknown id is ignored, a resolved entry is left
alone, and resolving one entry leaves the other entry untouched. -/
theorem c6_response_at_most_once_witness :
    handleRpcResponse [] (J.obj [("request_id", J.str "r1")]) = []
    ∧ handleRpcResponse [("r1", Fut.resolved J.null)]
        (J.obj [("request_id", J.str "r1")]) = [("r1", Fut.resolved J.null)]
    ∧ alookup (handleRpcResponse [("r1", Fut.pending), ("r2", Fut.pending)]
          (J.obj [("request_id", J.str "r1")])) "r2"
      = alookup ([("r1", Fut.pending), ("r2", Fut.pending)] : PendingTable)
          "r2" := by
  have T := c6_response_at_most_once [("request_id", J.str "r1")] "r1" rfl
  exact ⟨T.1 [] rfl, T.2.1 [("r1", Fut.resolved J.null)] J.null rfl,
    T.2.2 [("r1", Fut.pending), ("r2", Fut.pending)] "r2" (by decide)⟩

/-- C9 counterexample: a request envelope missing `args` and `kwargs`
(but carrying `method`, `request_id` and `reply_to`) is dispatched to
the method with the default empty argument lists and yields a success
response — it does not fail deserialization. -/
theorem c9_counterexample :
    handleRpcRequest "svc"
      [("m", fun a k => Except.ok (J.arr (a ++ k.map Prod.snd)))]
      [("method", J.str "m"), ("request_id", J.str "id1"),
       ("reply_to", J.str "r")]
      = (J.str "r", mkResponse (J.str "id1") (J.arr []) J.null) := rfl

/-- C9 (amended): only `method`, `request_id` and `reply_to` are
required — a request missing any of those is not dispatched to a method
(the handler takes the exception path and publishes an error response
carrying the `KeyError` text) — while `args` and `kwargs` are optional
and default to the empty sequence and empty mapping, with which the
method is invoked. -/
theorem c9_required_fields (selfName : String) (table : MethodTable) :
    (∀ (o : List (String × J)) (m : String) (f : RpcMethod) (rid v : J)
        (rto : String),
      alookup o "method" = some (J.str m) → alookup table m = some f →
      alookup o "args" = none → alookup o "kwargs" = none →
      alookup o "request_id" = some rid →
      alookup o "reply_to" = some (J.str rto) →
      f [] [] = Except.ok v →
      handleRpcRequest selfName table o = (J.str rto, mkResponse rid v J.null))
    ∧ (∀ o : List (String × J), alookup o "method" = none →
        handleRpcRequest selfName table o
          = ((alookup o "reply_to").getD
               (J.str ("rpc." ++ selfName ++ ".reply")),
             mkResponse ((alookup o "request_id").getD (J.str "unknown"))
               J.null (J.str (keyErrStr "method"))))
    ∧ (∀ (o : List (String × J)) (mn : J),
        alookup o "method" = some mn → alookup o "request_id" = none →
        handleRpcRequest selfName table o
          = ((alookup o "reply_to").getD
               (J.str ("rpc." ++ selfName ++ ".reply")),
             mkResponse (J.str "unknown") J.null
               (J.str (keyErrStr "request_id"))))
    ∧ (∀ (o : List (String × J)) (mn rid : J),
        alookup o "method" = some mn →
        alookup o "request_id" = some rid → alookup o "reply_to" = none →
        handleRpcRequest selfName table o
          = (J.str ("rpc." ++ selfName ++ ".reply"),
             mkResponse rid J.null (J.str (keyErrStr "reply_to")))) := by
  refine ⟨?_, ?_, ?_, ?_⟩
  · intro o m f rid v rto hm hf ha hk hr ht hv
    simp [handleRpcRequest, handleRpcRequestBody, hm, hf, ha, hk, hr, ht,
      hv, invokeMethod, asArgs, asKwargs]
  · intro o hm
    simp [handleRpcRequest, handleRpcRequestBody, hm]
  · intro o mn hm hr
    simp [handleRpcRequest, handleRpcRequestBody, hm, hr]
  · intro o mn rid hm hr ht
    simp [handleRpcRequest, handleRpcRequestBody, hm, hr, ht]

/-- Witness for the amended C9 at concrete envelopes. -/
theorem c9_required_fields_witness :
    handleRpcRequest "svc" [("m", fun a _ => Except.ok (J.arr a))]
      [("method", J.str "m"), ("request_id", J.str "i"),
       ("reply_to", J.str "r")]
      = (J.str "r", mkResponse (J.str "i") (J.arr []) J.null)
    ∧ handleRpcRequest "svc" [("m", fun a _ => Except.ok (J.arr a))]
        [("request_id", J.str "i"), ("reply_to", J.str "r")]
      = ((alookup [("request_id", J.str "i"), ("reply_to", J.str "r")]
            "reply_to").getD (J.str ("rpc." ++ "svc" ++ ".reply")),
         mkResponse ((alookup [("request_id", J.str "i"),
              ("reply_to", J.str "r")] "request_id").getD (J.str "unknown"))
           J.null (J.str (keyErrStr "method")))
    ∧ handleRpcRequest "svc" [("m", fun a _ => Except.ok (J.arr a))]
        [("method", J.str "m"), ("reply_to", J.str "r")]
      = ((alookup [("method", J.str "m"), ("reply_to", J.str "r")]
            "reply_to").getD (J.str ("rpc." ++ "svc" ++ ".reply")),
         mkResponse (J.str "unknown") J.null
           (J.str (keyErrStr "request_id")))
    ∧ handleRpcRequest "svc" [("m", fun a _ => Except.ok (J.arr a))]
        [("method", J.str "m"), ("request_id", J.str "i")]
      = (J.str ("rpc." ++ "svc" ++ ".reply"),
         mkResponse (J.str "i") J.null (J.str (keyErrStr "reply_to"))) := by
  have T := c9_required_fields "svc" [("m", fun a _ => Except.ok (J.arr a))]
  exact ⟨T.1 _ "m" (fun a _ => Except.ok (J.arr a)) (J.str "i") (J.arr [])
      "r" rfl rfl rfl rfl rfl rfl rfl,
    T.2.1 _ rfl,
    T.2.2.1 _ (J.str "m") rfl rfl,
    T.2.2.2 _ (J.str "m") (J.str "i") rfl rfl rfl⟩

/-- C2: messages published to a queue of a connected in-process broker
before any consumer is registered on it are all delivered, in publish
order, to a consumer registered afterwards, on the first iteration of
its consumer task's polling loop (any messages already in the FIFO are
delivered first, so the batch arrives complete and in order). -/
theorem c2_fifo_delivery_after_registration (raises : Nat → J → Bool)
    (s : MemState) (q : String) (h : Nat) (ms : List J)
    (hconn : s.connected = true) (hnoc : lookupD s.consumers q = [])
    (hfresh : evFor h s.log = []) :
    msgsFor h (applyOps raises s
        (pubOps q ms ++ [MOp.consume q h, MOp.loopStep q h])).log
      = lookupD s.queues q ++ ms := by
  obtain ⟨e1, e2, e3, e4, e5⟩ := pubBatch_state raises q ms s hconn hnoc
  set t := applyOps raises s (pubOps q ms) with ht
  have hsplit : applyOps raises s
      (pubOps q ms ++ [MOp.consume q h, MOp.loopStep q h])
      = applyOps raises t [MOp.consume q h, MOp.loopStep q h] := by
    simp [applyOps, List.foldl_append, ht]
  rw [hsplit]
  have hck : cinsertSet (lookupD t.consumers q) h = [h] := by
    rw [e1, hnoc]; rfl
  have hc1 : applyOp raises t (MOp.consume q h)
      = { t with consumers := aupdate t.consumers q [h]
                 tasks := t.tasks ++ [(q, h)] } := by
    simp [applyOp, exceptD, memConsume, e2, hck]
  have hpair : applyOps raises t [MOp.consume q h, MOp.loopStep q h]
      = applyOp raises (applyOp raises t (MOp.consume q h))
          (MOp.loopStep q h) := rfl
  rw [hpair, hc1]
  set t1 : MemState := { t with consumers := aupdate t.consumers q [h]
                                tasks := t.tasks ++ [(q, h)] } with ht1
  have hcq : lookupD t1.consumers q = [h] := by
    show lookupD (aupdate t.consumers q [h]) q = [h]
    exact lookupD_aupdate_self _ _ _
  have hconn1 : t1.connected = true := e2
  have hl : applyOp raises t1 (MOp.loopStep q h)
      = processQueue raises t1 q := by
    show memLoopStep raises t1 q h = processQueue raises t1 q
    unfold memLoopStep
    rw [if_pos ⟨hconn1, by rw [hcq]; exact List.mem_singleton.mpr rfl⟩]
  rw [hl]
  have hpq : processQueue raises t1 q
      = { t1 with queues := aupdate t1.queues q []
                  log := drainLog [h] raises (lookupD t1.queues q) t1.log } := by
    simp [processQueue, hcq]
  rw [hpq]
  show msgsFor h (drainLog [h] raises (lookupD t1.queues q) t1.log)
    = lookupD s.queues q ++ ms
  rw [drainLog_single, msgsFor_append]
  have hq1 : lookupD t1.queues q = lookupD s.queues q ++ ms := by
    show lookupD t.queues q = lookupD s.queues q ++ ms
    exact e5
  have hlog : msgsFor h t1.log = [] := by
    show msgsFor h t.log = []
    rw [e3]
    unfold msgsFor evFor
    rw [show List.filter (fun e => e.hid == h) s.log = evFor h s.log from rfl,
      hfresh]
    rfl
  rw [hq1, hlog, msgsFor_map_self]
  rfl

/-- Witness for C2 at a connected fresh broker and a two-message batch. -/
theorem c2_fifo_delivery_after_registration_witness :
    msgsFor 0 (applyOps (fun _ _ => false)
        { memInit with connected := true }
        (pubOps "q" [J.str "a", J.str "b"]
          ++ [MOp.consume "q" 0, MOp.loopStep "q" 0])).log
      = lookupD ({ memInit with connected := true } : MemState).queues "q"
        ++ [J.str "a", J.str "b"] :=
  c2_fifo_delivery_after_registration (fun _ _ => false)
    { memInit with connected := true } "q" 0 [J.str "a", J.str "b"]
    rfl rfl rfl

/-- C3: on a connected in-process broker, a message published to a queue
with C ≥ 2 registered consumers is dispatched to every one of those
consumers (broadcast, not partitioned). -/
theorem c3_broadcast_delivery (raises : Nat → J → Bool) (s : MemState)
    (q : String) (m : J) (h : Nat) (hconn : s.connected = true)
    (hC : 2 ≤ (lookupD s.consumers q).length)
    (hh : h ∈ lookupD s.consumers q) :
    ∃ s', memPublish raises s q m = Except.ok s'
      ∧ mkEv h m (raises h m) ∈ s'.log := by
  have hpub : memPublish raises s q m = Except.ok (processQueue raises
      { s with queues := aupdate s.queues q (lookupD s.queues q ++ [m])
               pubLog := s.pubLog ++ [(q, m)] } q) := by
    simp [memPublish, hconn]
  refine ⟨_, hpub, ?_⟩
  apply mem_processQueue_log
  · exact hh
  · show m ∈ lookupD (aupdate s.queues q (lookupD s.queues q ++ [m])) q
    rw [lookupD_aupdate_self]
    exact List.mem_append_right _ (List.mem_singleton.mpr rfl)

/-- Witness for C3 with two registered consumers. -/
theorem c3_broadcast_delivery_witness :
    ∃ s', memPublish (fun _ _ => false)
        { memInit with connected := true, consumers := [("q", [0, 1])] }
        "q" (J.str "x") = Except.ok s'
      ∧ mkEv 1 (J.str "x") false ∈ s'.log :=
  c3_broadcast_delivery (fun _ _ => false)
    { memInit with connected := true, consumers := [("q", [0, 1])] }
    "q" (J.str "x") 1 rfl (by decide) (by decide)

/-- C7: disconnecting any reachable in-process broker state leaves zero
consumer tasks, a cleared connected flag, and an empty consumer set on
every queue — each cancelled consumer task removes its own registration,
and every registered handler has such a task (the `ConsInv` invariant of
all reachable states), so the removals converge to empty sets even when
disconnect hits tasks mid-dispatch. -/
theorem c7_disconnect_clears (raises : Nat → J → Bool) (s : MemState)
    (q : String) (hr : ReachableMem raises s) :
    (memDisconnect s).tasks = [] ∧ (memDisconnect s).connected = false
    ∧ lookupD (memDisconnect s).consumers q = [] := by
  refine ⟨rfl, rfl, ?_⟩
  show lookupD (removeTasks s.consumers s.tasks) q = []
  exact removeTasks_empty_of_inv s.tasks s.consumers
    (consInv_reachable raises s hr) q

/-- Witness for C7 at a reachable state with one live consumer and a
published message. -/
theorem c7_disconnect_clears_witness :
    (memDisconnect (applyOps (fun _ _ => false) memInit
        [MOp.connect, MOp.consume "q" 0,
         MOp.publish "q" (J.str "x")])).tasks = []
    ∧ (memDisconnect (applyOps (fun _ _ => false) memInit
        [MOp.connect, MOp.consume "q" 0,
         MOp.publish "q" (J.str "x")])).connected = false
    ∧ lookupD (memDisconnect (applyOps (fun _ _ => false) memInit
        [MOp.connect, MOp.consume "q" 0,
         MOp.publish "q" (J.str "x")])).consumers "q" = [] :=
  c7_disconnect_clears (fun _ _ => false) _ "q"
    (ReachableMem.step (MOp.publish "q" (J.str "x"))
      (ReachableMem.step (MOp.consume "q" 0)
        (ReachableMem.step MOp.connect ReachableMem.init)))

/-- The test handler of the C8 scenario: raises exactly on the payload
`b"fail"`. -/
def c8raises : Nat → J → Bool := fun _ m =>
  match m with
  | J.str "fail" => true
  | _ => false

/-- The C8 scenario: connect, register handler 0 on a queue, then
publish `b"fail"` followed by `b"good"`. -/
def c8ops : List MOp :=
  [MOp.connect, MOp.consume "error_queue" 0,
   MOp.publish "error_queue" (J.str "fail"),
   MOp.publish "error_queue" (J.str "good")]

/-- C8: dispatch is fault-isolated — a raising handler invocation is
recorded (reported) without being propagated, and every handler still
receives every message of the batch; in the concrete scenario,
publishing `b"fail"` then `b"good"` to a handler that raises on
`b"fail"` ends with exactly `[b"good"]` collected while the failed
invocation is reported in the dispatch log. -/
theorem c8_fault_isolated_dispatch :
    (∀ (hs : List Nat) (raises : Nat → J → Bool) (ms : List J)
        (log : List Ev) (h : Nat) (m : J), h ∈ hs → m ∈ ms →
        mkEv h m (raises h m) ∈ drainLog hs raises ms log)
    ∧ collectedFor 0 (applyOps c8raises memInit c8ops).log = [J.str "good"]
    ∧ (applyOps c8raises memInit c8ops).log
        = [mkEv 0 (J.str "fail") true, mkEv 0 (J.str "good") false] := by
  refine ⟨?_, ?_, ?_⟩
  · intro hs raises ms log h m hh hm
    exact mem_drainLog hs raises h m hh ms log hm
  · rfl
  · rfl

/-- Witness for C8's universally quantified fault-isolation clause. -/
theorem c8_fault_isolated_dispatch_witness :
    mkEv 0 (J.str "fail") (c8raises 0 (J.str "fail"))
      ∈ drainLog [0, 1] c8raises [J.str "fail", J.str "good"] [] :=
  c8_fault_isolated_dispatch.1 [0, 1] c8raises
    [J.str "fail", J.str "good"] [] 0 (J.str "fail")
    (by decide) (List.mem_cons_self _ _)

/-- C10: after the broker operations of `call_rpc` complete, the
response handler registered on the per-call reply queue is still
registered and its background consumer task still exists; both survive
any sequence of broker operations that does not contain `disconnect`;
and `disconnect` removes the handler registration and cancels the task. -/
theorem c10_reply_consumer_persists (raises : Nat → J → Bool)
    (bs : MemState) (svcName target method : String) (args : List J)
    (kwargs : List (String × J)) (rid : String) (hResp : Nat)
    (hconn : bs.connected = true) :
    ∃ bs', callRpcBrokerSteps raises bs svcName target method args kwargs
        rid hResp = Except.ok bs'
      ∧ hResp ∈ lookupD bs'.consumers (replyQueueName svcName rid)
      ∧ (replyQueueName svcName rid, hResp) ∈ bs'.tasks
      ∧ (∀ ops : List MOp, (∀ op ∈ ops, op ≠ MOp.disconnect) →
          hResp ∈ lookupD (applyOps raises bs' ops).consumers
              (replyQueueName svcName rid)
          ∧ (replyQueueName svcName rid, hResp)
              ∈ (applyOps raises bs' ops).tasks)
      ∧ hResp ∉ lookupD (memDisconnect bs').consumers
          (replyQueueName svcName rid)
      ∧ (memDisconnect bs').tasks = [] := by
  set rq := replyQueueName svcName rid with hrq
  set env := requestEnvelope method args kwargs rid rq with henv
  set bs1 : MemState :=
    { bs with consumers := aupdate bs.consumers rq
                (cinsertSet (lookupD bs.consumers rq) hResp)
              tasks := bs.tasks ++ [(rq, hResp)] } with hbs1
  have hc1 : memConsume bs rq hResp = Except.ok bs1 := by
    simp [memConsume, hconn, hbs1]
  have hconn1 : bs1.connected = true := hconn
  set bs1x : MemState :=
    { bs1 with queues := aupdate bs1.queues (rpcQueueName target)
                 (lookupD bs1.queues (rpcQueueName target) ++ [env])
               pubLog := bs1.pubLog ++ [(rpcQueueName target, env)] } with hbs1x
  have hp2 : memPublish raises bs1 (rpcQueueName target) env
      = Except.ok (processQueue raises bs1x (rpcQueueName target)) := by
    simp [memPublish, hconn, hbs1x]
  set bs2 := processQueue raises bs1x (rpcQueueName target) with hbs2
  have hrun : callRpcBrokerSteps raises bs svcName target method args kwargs
      rid hResp = Except.ok bs2 := by
    have hdo : callRpcBrokerSteps raises bs svcName target method args kwargs
        rid hResp
        = memConsume bs rq hResp >>= fun b =>
            memPublish raises b (rpcQueueName target) env := rfl
    rw [hdo, hc1]
    exact hp2
  have hm1 : hResp ∈ lookupD bs1.consumers rq := by
    show hResp ∈ lookupD
      (aupdate bs.consumers rq (cinsertSet (lookupD bs.consumers rq) hResp))
      rq
    rw [lookupD_aupdate_self]
    exact mem_cinsertSet_self _ _
  have ht1 : (rq, hResp) ∈ bs1.tasks :=
    List.mem_append_right _ (List.mem_singleton.mpr rfl)
  have hm2 : hResp ∈ lookupD bs2.consumers rq := by
    rw [hbs2, processQueue_consumers]
    exact hm1
  have ht2 : (rq, hResp) ∈ bs2.tasks := by
    rw [hbs2, processQueue_tasks]
    exact ht1
  refine ⟨bs2, hrun, hm2, ht2, ?_, ?_, rfl⟩
  · intro ops hops
    exact applyOps_keeps_consumer raises rq hResp ops bs2 hops hm2 ht2
  · exact not_mem_removeTasks bs2.tasks bs2.consumers rq hResp ht2

/-- Witness for C10 at a connected fresh broker and a concrete call. -/
theorem c10_reply_consumer_persists_witness :
    ∃ bs', callRpcBrokerSteps (fun _ _ => false)
        { memInit with connected := true } "user" "greeting" "hello"
        [J.str "Alice"] [] "r1" 7 = Except.ok bs'
      ∧ 7 ∈ lookupD bs'.consumers (replyQueueName "user" "r1")
      ∧ (replyQueueName "user" "r1", 7) ∈ bs'.tasks
      ∧ (∀ ops : List MOp, (∀ op ∈ ops, op ≠ MOp.disconnect) →
          7 ∈ lookupD (applyOps (fun _ _ => false) bs' ops).consumers
              (replyQueueName "user" "r1")
          ∧ (replyQueueName "user" "r1", 7)
              ∈ (applyOps (fun _ _ => false) bs' ops).tasks)
      ∧ 7 ∉ lookupD (memDisconnect bs').consumers
          (replyQueueName "user" "r1")
      ∧ (memDisconnect bs').tasks = [] :=
  c10_reply_consumer_persists (fun _ _ => false)
    { memInit with connected := true } "user" "greeting" "hello"
    [J.str "Alice"] [] "r1" 7 rfl

end Basidia
